import Mathlib

/-!
Shallow embedding of `scraper.py` (WSLCB license scraper): the geocode
cache layer (`geocode_addresses_batch`), the HTML row extractor
(`parse_html`), date resolution (`get_notification_date`), the upsert
reconciler (`upsert_data`) and the `main` pipeline, together with the
retention sweeper described by the specification for the backing-store
variants not present in this checkout.

Python dicts are modelled as insertion-ordered association lists with
replace-on-insert; Python `or` on optional strings keeps its truthiness
semantics (an empty string falls through); machine floats carried opaquely
by the code are modelled as `Int` (the scraper never computes with them,
it only passes them through).
-/

namespace Wslcb

/-- Python dict assignment `d[k] = v`: replace the value in place if the
key is present (keeping insertion order), otherwise append. -/
def dictInsert {κ α : Type} [DecidableEq κ] (k : κ) (v : α) : List (κ × α) → List (κ × α)
  | [] => [(k, v)]
  | p :: rest => if p.1 = k then (k, v) :: rest else p :: dictInsert k v rest

/-- Python dict lookup `d.get(k)`: first (hence unique) entry for the key. -/
def dictLookup {κ α : Type} [DecidableEq κ] (d : List (κ × α)) (k : κ) : Option α :=
  (d.find? (fun p => decide (p.1 = k))).map (fun p => p.2)

@[simp]
theorem dictLookup_nil {κ α : Type} [DecidableEq κ] (k : κ) :
    dictLookup ([] : List (κ × α)) k = none := rfl

@[simp]
theorem dictLookup_cons {κ α : Type} [DecidableEq κ] (p : κ × α) (d : List (κ × α)) (k : κ) :
    dictLookup (p :: d) k = if p.1 = k then some p.2 else dictLookup d k := by
  by_cases h : p.1 = k <;> simp [dictLookup, List.find?, h]

@[simp]
theorem dictLookup_insert {κ α : Type} [DecidableEq κ] (k a : κ) (v : α) (d : List (κ × α)) :
    dictLookup (dictInsert k v d) a = if k = a then some v else dictLookup d a := by
  induction d with
  | nil => by_cases h : k = a <;> simp [dictInsert, h]
  | cons p rest ih =>
      by_cases hp : p.1 = k
      · by_cases ha : k = a
        · simp [dictInsert, hp, ha]
        · have h2 : ¬ p.1 = a := fun h => ha (hp.symm.trans h)
          simp [dictInsert, hp, ha, h2]
      · by_cases ha : p.1 = a
        · have h2 : ¬ k = a := fun h => hp (ha.trans h.symm)
          have h3 : ¬ a = k := fun h => h2 h.symm
          simp [dictInsert, hp, ha, h2, h3]
        · simp [dictInsert, hp, ha, ih]

/-- Python `x or y` on optional strings: `None` and `""` are falsy. -/
def pyOr (x y : Option String) : Option String :=
  match x with
  | some s => if s = "" then y else some s
  | none => y

/-! ## Geocode cache layer (`geocode_addresses_batch`, scraper.py lines 71-125)

Addresses flowing through `main` are `entry.get('Business Location') or
entry.get('New Business Location')` and may therefore be `None`; the
address type is `Option String`. A cache row is keyed by its `address`
column (the Xata record id is `hash(address)`, injective for the purpose
of this model, so the table is keyed by address). The Geocodio client is
the external collaborator `batch_geocode(addresses) -> one result-or-null
per address`, modelled as a per-address function applied to the batch. -/

abbrev Addr := Option String

/-- One Geocodio result: `results[0].location.lat/lng`,
`results[0].address_components.get('zip')`,
`results[0].get('formatted_address', '')`. -/
structure GeoRes where
  lat : Int
  lng : Int
  zip : Option String
  formatted : Option String
  deriving DecidableEq

/-- The 5-tuple `(lat, lng, geohash, zipcode, formatted_address)` stored in
`existing_results` and in the `geocode_cache` table. -/
structure GeoTuple where
  lat : Int
  lng : Int
  geohash : String
  zipcode : Option String
  formatted_address : String
  deriving DecidableEq

/-- Lines 100-107: unpack a Geocodio result into the cached 5-tuple,
deriving the geohash with `geohash2.encode` (the opaque `encode`). -/
def tupleOfRes (encode : Int → Int → String) (r : GeoRes) : GeoTuple :=
  ⟨r.lat, r.lng, encode r.lat r.lng, r.zip, r.formatted.getD ""⟩

/-- Lines 74-92: the cache-lookup loop. One `geocode_cache` query is issued
per address (the counter in the accumulator); `rf a = true` models a raised
or unsuccessful query for `a` (caught, logged, treated as a miss). -/
def lookupLoop (cache : List (Addr × GeoTuple)) (rf : Addr → Bool) :
    List Addr → List (Addr × GeoTuple) × Nat → List (Addr × GeoTuple) × Nat
  | [], acc => acc
  | a :: rest, acc =>
      let d := if rf a then acc.1 else
        match dictLookup cache a with
        | some t => dictInsert a t acc.1
        | none => acc.1
      lookupLoop cache rf rest (d, acc.2 + 1)

/-- Lines 99-122: the loop over `zip(addresses_to_geocode, geocode_results)`.
A missing/empty Geocodio result (`client a = none`) is skipped; otherwise
the tuple is added to `existing_results` and written back to the cache
unless the write raises (`wf a = true`, caught and logged). -/
def geocodeLoop (client : Addr → Option GeoRes) (encode : Int → Int → String)
    (wf : Addr → Bool) :
    List Addr → List (Addr × GeoTuple) → List (Addr × GeoTuple) →
      List (Addr × GeoTuple) × List (Addr × GeoTuple)
  | [], d, c => (d, c)
  | a :: rest, d, c =>
      match client a with
      | none => geocodeLoop client encode wf rest d c
      | some r =>
          let t := tupleOfRes encode r
          geocodeLoop client encode wf rest (dictInsert a t d)
            (if wf a then c else dictInsert a t c)

/-- Observable outcome of one `geocode_addresses_batch` call: the returned
`existing_results` dict, how many `geocode_cache` queries were issued, how
many `client.batch_geocode` calls were made, and the cache table afterwards. -/
structure BatchOut where
  results : List (Addr × GeoTuple)
  cacheQueries : Nat
  externalCalls : Nat
  cacheAfter : List (Addr × GeoTuple)
  deriving DecidableEq

/-- `geocode_addresses_batch(addresses)` (lines 71-125): per-address cache
lookups, then one single `client.batch_geocode` call for the misses (none
when every address hit the cache), then write-back and merge. -/
def geocode_addresses_batch (cache : List (Addr × GeoTuple)) (rf wf : Addr → Bool)
    (encode : Int → Int → String) (client : Addr → Option GeoRes)
    (addresses : List Addr) : BatchOut :=
  let p1 := lookupLoop cache rf addresses ([], 0)
  let misses := addresses.filter (fun a => (dictLookup p1.1 a).isNone)
  if misses = [] then ⟨p1.1, p1.2, 0, cache⟩
  else
    let p3 := geocodeLoop client encode wf misses p1.1 cache
    ⟨p3.1, p1.2, 1, p3.2⟩

/-! ## Record extractor (`parse_html`, scraper.py lines 134-146)

A scraped `tbody` row is a list of `td` cells; a cell carrying a `style`
attribute is a label cell, one without is a value cell. -/

/-- One `td` cell of a scraped row. -/
structure Cell where
  styled : Bool
  text : String
  deriving DecidableEq

/-- Python `s.strip()`: drop leading and trailing whitespace. -/
def pyStrip (s : String) : String :=
  ⟨((s.data.dropWhile Char.isWhitespace).reverse.dropWhile Char.isWhitespace).reverse⟩

/-- Python `s.rstrip(':')`: drop trailing colons. -/
def rstripColon (s : String) : String :=
  ⟨(s.data.reverse.dropWhile (fun c => c = ':')).reverse⟩

/-- Line 140: `[label.text.strip().rstrip(':') for label in row.select("td[style]")]`. -/
def labelsOf (row : List Cell) : List String :=
  (row.filter (fun c => c.styled)).map (fun c => rstripColon (pyStrip c.text))

/-- Line 141: `[value.text.strip() for value in row.select("td:not([style])")]`. -/
def valuesOf (row : List Cell) : List String :=
  (row.filter (fun c => !c.styled)).map (fun c => pyStrip c.text)

/-- An extracted record: the Python dict built from one row. -/
abbrev Entry := List (String × String)

/-- Python `dict(pairs)`: left-to-right insertion, later pairs overwrite. -/
def dictOfPairs (ps : List (String × String)) : Entry :=
  ps.foldl (fun d p => dictInsert p.1 p.2 d) []

/-- Line 143: `dict(zip(labels, values))` for one row. -/
def rowDict (row : List Cell) : Entry :=
  dictOfPairs ((labelsOf row).zip (valuesOf row))

/-- `parse_html` (lines 134-146): keep a row only when it has at least one
label cell and at least one value cell (`if labels and values`). -/
def parse_html : List (List Cell) → List Entry
  | [] => []
  | row :: rest =>
      if labelsOf row ≠ [] ∧ valuesOf row ≠ [] then rowDict row :: parse_html rest
      else parse_html rest

/-! ## Date resolution and upsert reconciler (scraper.py lines 148-201)

The parsed `datetime` is an opaque type `Date`; `strptime` is the
parameter `parseDate` (returning `none` exactly when the Python call
raises, which `get_notification_date` catches), and `xata.helpers.to_rfc339`
is `toRfc` on a parsed date. `to_rfc339` calls `dt.replace(...)` on its
argument, so passing it `None` raises an `AttributeError`; that raise
happens at line 161, outside the per-record `try` block. -/

/-- Line 159 and line 209: `entry.get('Business Location') or
entry.get('New Business Location')`. -/
def resolveAddress (e : Entry) : Addr :=
  pyOr (dictLookup e "Business Location") (dictLookup e "New Business Location")

/-- `get_notification_date` (lines 148-154): first truthy of the three date
fields, parsed; a missing/empty string or a parse failure yields `None`
(the `except` clause logs and returns `None`). -/
def get_notification_date {Date : Type} (parseDate : String → Option Date) (e : Entry) :
    Option Date :=
  match pyOr (dictLookup e "Notification Date")
      (pyOr (dictLookup e "Approved Date") (dictLookup e "Discontinued Date")) with
  | none => none
  | some s => if s = "" then none else parseDate s

/-- `xata.helpers.to_rfc339` applied to the possibly-`None` parsed date:
`dt.replace(tzinfo=tz).isoformat()` raises `AttributeError` on `None`. -/
def to_rfc339E {Date : Type} (toRfc : Date → String) : Option Date → Except String String
  | none => Except.error "AttributeError"
  | some d => Except.ok (toRfc d)

/-- The `license_data` dict built at lines 163-181. -/
structure LicenseData where
  notification_date : String
  current_business_name : Option String
  new_business_name : Option String
  business_location : Option String
  current_applicants : Option String
  new_applicants : Option String
  license_type : Option String
  application_type : Option String
  license_number : Option String
  contact_phone : Option String
  latitude : Option Int
  longitude : Option Int
  geohash : Option String
  zipcode : Option String
  formatted_address : Option String
  business_name : Option String
  applicants : Option String
  deriving DecidableEq

/-- Line 160: `geocode_results.get(address, (None, None, None, None, None))`
unpacked into the five geocoding fields. -/
def geoFromLookup : Option GeoTuple →
    Option Int × Option Int × Option String × Option String × Option String
  | some t => (some t.lat, some t.lng, some t.geohash, t.zipcode, some t.formatted_address)
  | none => (none, none, none, none, none)

/-- Lines 159-181: build `license_data` for one entry from the geocode
mapping `g` and the already-rendered notification date string `nd`. -/
def mk_license_data (g : List (Addr × GeoTuple)) (nd : String) (e : Entry) : LicenseData :=
  let address := resolveAddress e
  let geo := geoFromLookup (dictLookup g address)
  { notification_date := nd
    current_business_name := dictLookup e "Current Business Name"
    new_business_name := dictLookup e "New Business Name"
    business_location := address
    current_applicants := dictLookup e "Current Applicant(s)"
    new_applicants := dictLookup e "New Applicant(s)"
    license_type := dictLookup e "License Type"
    application_type := dictLookup e "Application Type"
    license_number := dictLookup e "License Number"
    contact_phone := dictLookup e "Contact Phone"
    latitude := geo.1
    longitude := geo.2.1
    geohash := geo.2.2.1
    zipcode := geo.2.2.2.1
    formatted_address := geo.2.2.2.2
    business_name := dictLookup e "Business Name"
    applicants := dictLookup e "Applicant(s)" }

/-- One persisted row of the `licenses` table, with its store-generated id
and the store-maintained record timestamps. -/
structure StoredRow where
  id : Nat
  created : Nat
  updated : Nat
  data : LicenseData
  deriving DecidableEq

/-- The `licenses` table plus the store's id supply. -/
structure Store where
  nextId : Nat
  rows : List StoredRow
  deriving DecidableEq

/-- The natural-key filter of lines 184-192: `$all` on `license_number`,
`notification_date` and `license_type`, exact match including null. -/
def keyMatch (ld : LicenseData) (r : StoredRow) : Bool :=
  decide (r.data.license_number = ld.license_number)
    && decide (r.data.notification_date = ld.notification_date)
    && decide (r.data.license_type = ld.license_type)

/-- The query/update/insert path of `upsert_data` (lines 184-197): query the
store for the natural key; update the first match in place, else insert.
Modelled from the spec: the `created`/`updated` bookkeeping (record
creation/last-update timestamps, kept by the backing store and handled
explicitly in the repository's other backing-store variants, which are not
in this checkout) — insert sets both to `now`; update preserves `created`
and sets `updated` to `now`. -/
def upsert_one (now : Nat) (ld : LicenseData) (s : Store) : Store :=
  match s.rows.find? (keyMatch ld) with
  | some r0 =>
      ⟨s.nextId, s.rows.map (fun r => if r.id = r0.id then ⟨r.id, r.created, now, ld⟩ else r)⟩
  | none => ⟨s.nextId + 1, s.rows ++ [⟨s.nextId, now, now, ld⟩]⟩

/-- `upsert_data` (lines 156-201): process entries in order. The
`to_rfc339` call at line 161 sits outside the `try` block, so its
`AttributeError` on a `None` date propagates and aborts the whole loop
(the error carries the store as committed so far). A store failure inside
the `try` (`opFails e = true`) is caught and logged: the record is skipped
and the loop continues. -/
def upsert_data {Date : Type} (parseDate : String → Option Date) (toRfc : Date → String)
    (g : List (Addr × GeoTuple)) (opFails : Entry → Bool) (now : Nat) :
    List Entry → Store → Except (String × Store) Store
  | [], s => Except.ok s
  | e :: rest, s =>
      match to_rfc339E toRfc (get_notification_date parseDate e) with
      | Except.error msg => Except.error (msg, s)
      | Except.ok nd =>
          let ld := mk_license_data g nd e
          let s2 := if opFails e then s else upsert_one now ld s
          upsert_data parseDate toRfc g opFails now rest s2

/-- Modelled from the spec: the Retention Sweeper (implemented only in the
repository's other backing-store variants, not present in this checkout)
deletes every persisted record whose `creation_date` is older than the
fixed 180-day window relative to the current time, and keeps the rest;
timestamps are in days. -/
def retention_sweep (now : Nat) (s : Store) : Store :=
  ⟨s.nextId, s.rows.filter (fun r => decide (now - r.created ≤ 180))⟩

/-! ## The `main` pipeline (scraper.py lines 203-211) -/

/-- Python slice `data[:n]` for an `int` `n` (negative `n` drops from the
end). -/
def pySliceTo {α : Type} (n : Int) (xs : List α) : List α :=
  if 0 ≤ n then xs.take n.toNat else xs.take (xs.length - (-n).toNat)

/-- Lines 206-208: `if limit: data = data[:limit]` — `None` and `0` are
falsy, so neither truncates. -/
def applyLimit (limit : Option Int) (data : List Entry) : List Entry :=
  match limit with
  | none => data
  | some n => if n = 0 then data else pySliceTo n data

/-- `main(limit)` from the parsed rows onward (lines 203-211): limit, build
the address list, geocode, upsert. -/
def main_model {Date : Type} (limit : Option Int) (rows : List (List Cell))
    (cache : List (Addr × GeoTuple)) (rf wf : Addr → Bool) (encode : Int → Int → String)
    (client : Addr → Option GeoRes) (parseDate : String → Option Date)
    (toRfc : Date → String) (opFails : Entry → Bool) (now : Nat) (st : Store) :
    Except (String × Store) Store :=
  let data := applyLimit limit (parse_html rows)
  let addresses := data.map resolveAddress
  let g := geocode_addresses_batch cache rf wf encode client addresses
  upsert_data parseDate toRfc g.results opFails now data st

/-! ## Characterization of `geocode_addresses_batch` -/

theorem lookupLoop_queries (cache : List (Addr × GeoTuple)) (rf : Addr → Bool)
    (as : List Addr) (d : List (Addr × GeoTuple)) (q : Nat) :
    (lookupLoop cache rf as (d, q)).2 = q + as.length := by
  induction as generalizing d q with
  | nil => simp [lookupLoop]
  | cons b rest ih =>
      show (lookupLoop cache rf rest (_, q + 1)).2 = _
      rw [ih]
      simp [Nat.add_comm, Nat.add_assoc, Nat.add_left_comm]

theorem stepDict_lookup (cache : List (Addr × GeoTuple)) (rf : Addr → Bool)
    (b a : Addr) (d : List (Addr × GeoTuple)) :
    dictLookup
      (if rf b then d else
        match dictLookup cache b with
        | some t => dictInsert b t d
        | none => d) a =
      if b = a ∧ rf a = false ∧ (dictLookup cache a).isSome
      then dictLookup cache a else dictLookup d a := by
  by_cases hba : b = a
  · subst hba
    cases hrf : rf b <;> cases hc : dictLookup cache b <;> simp [hrf, hc]
  · cases hrf : rf b <;> cases hc : dictLookup cache b <;> simp [hrf, hc, hba]

theorem lookupLoop_lookup (cache : List (Addr × GeoTuple)) (rf : Addr → Bool)
    (as : List Addr) (d : List (Addr × GeoTuple)) (q : Nat) (a : Addr) :
    dictLookup (lookupLoop cache rf as (d, q)).1 a =
      if a ∈ as ∧ rf a = false ∧ (dictLookup cache a).isSome
      then dictLookup cache a else dictLookup d a := by
  induction as generalizing d q with
  | nil => simp [lookupLoop]
  | cons b rest ih =>
      show dictLookup (lookupLoop cache rf rest (_, q + 1)).1 a = _
      rw [ih, stepDict_lookup]
      by_cases h1 : rf a = false ∧ (dictLookup cache a).isSome
      · by_cases h2 : a ∈ rest
        · simp [h1, h2]
        · by_cases h3 : b = a
          · simp [h1, h2, h3]
          · have h4 : ¬ a = b := fun h => h3 h.symm
            simp [h1, h2, h3, h4]
      · simp [h1]

theorem geocodeLoop_results (client : Addr → Option GeoRes) (encode : Int → Int → String)
    (wf : Addr → Bool) (ms : List Addr) (d c : List (Addr × GeoTuple)) (a : Addr) :
    dictLookup (geocodeLoop client encode wf ms d c).1 a =
      match client a with
      | some r => if a ∈ ms then some (tupleOfRes encode r) else dictLookup d a
      | none => dictLookup d a := by
  induction ms generalizing d c with
  | nil => cases hca : client a <;> simp [geocodeLoop, hca]
  | cons b rest ih =>
      by_cases hba : b = a
      · subst hba
        cases hcb : client b with
        | none => simp only [geocodeLoop, hcb]; rw [ih]; simp [hcb]
        | some r =>
            simp only [geocodeLoop, hcb]
            rw [ih]
            by_cases hm : b ∈ rest <;> simp [hcb, hm]
      · have hab : ¬ a = b := fun h => hba h.symm
        cases hcb : client b with
        | none =>
            simp only [geocodeLoop, hcb]
            rw [ih]
            cases hca : client a <;> simp [hca, hab]
        | some r =>
            simp only [geocodeLoop, hcb]
            rw [ih]
            cases hca : client a <;> simp [hca, hab, hba]

theorem geocodeLoop_cache (client : Addr → Option GeoRes) (encode : Int → Int → String)
    (wf : Addr → Bool) (ms : List Addr) (d c : List (Addr × GeoTuple)) (a : Addr) :
    dictLookup (geocodeLoop client encode wf ms d c).2 a =
      match client a with
      | some r =>
          if a ∈ ms ∧ wf a = false then some (tupleOfRes encode r) else dictLookup c a
      | none => dictLookup c a := by
  induction ms generalizing d c with
  | nil => cases hca : client a <;> simp [geocodeLoop, hca]
  | cons b rest ih =>
      by_cases hba : b = a
      · subst hba
        cases hcb : client b with
        | none => simp only [geocodeLoop, hcb]; rw [ih]; simp [hcb]
        | some r =>
            simp only [geocodeLoop, hcb]
            rw [ih]
            cases hwb : wf b with
            | false => by_cases hm : b ∈ rest <;> simp [hcb, hm, hwb]
            | true => by_cases hm : b ∈ rest <;> simp [hcb, hm, hwb]
      · have hab : ¬ a = b := fun h => hba h.symm
        cases hcb : client b with
        | none =>
            simp only [geocodeLoop, hcb]
            rw [ih]
            cases hca : client a <;> simp [hca, hab]
        | some r =>
            simp only [geocodeLoop, hcb]
            rw [ih]
            cases hwb : wf b <;> cases hca : client a <;> simp [hca, hab, hba]

/-- Which addresses end up in `addresses_to_geocode` (line 94). -/
theorem mem_misses (cache : List (Addr × GeoTuple)) (rf : Addr → Bool)
    (addresses : List Addr) (a : Addr) :
    (a ∈ addresses.filter
        (fun x => (dictLookup (lookupLoop cache rf addresses ([], 0)).1 x).isNone)) ↔
      a ∈ addresses ∧ ¬ (rf a = false ∧ (dictLookup cache a).isSome) := by
  rw [List.mem_filter]
  constructor
  · rintro ⟨hmem, hnone⟩
    refine ⟨hmem, fun hP => ?_⟩
    rw [lookupLoop_lookup] at hnone
    simp [hmem, hP] at hnone
    rw [hnone] at hP
    simp at hP
  · rintro ⟨hmem, hP⟩
    refine ⟨hmem, ?_⟩
    rw [lookupLoop_lookup]
    simp [hP]

/-- The per-address resolution the batch call implements: a cache hit wins,
otherwise the Geocodio result for the address (if any). -/
def resolveSpec (cache : List (Addr × GeoTuple)) (rf : Addr → Bool)
    (encode : Int → Int → String) (client : Addr → Option GeoRes)
    (addresses : List Addr) (a : Addr) : Option GeoTuple :=
  if a ∈ addresses then
    if rf a = false ∧ (dictLookup cache a).isSome then dictLookup cache a
    else (client a).map (tupleOfRes encode)
  else none

theorem batch_queries (cache : List (Addr × GeoTuple)) (rf wf : Addr → Bool)
    (encode : Int → Int → String) (client : Addr → Option GeoRes)
    (addresses : List Addr) :
    (geocode_addresses_batch cache rf wf encode client addresses).cacheQueries =
      addresses.length := by
  by_cases hm : addresses.filter
      (fun a => (dictLookup (lookupLoop cache rf addresses ([], 0)).1 a).isNone) = []
  · simp only [geocode_addresses_batch, hm, if_pos]
    rw [lookupLoop_queries]
    simp
  · simp only [geocode_addresses_batch, if_neg hm]
    rw [lookupLoop_queries]
    simp

theorem batch_results (cache : List (Addr × GeoTuple)) (rf wf : Addr → Bool)
    (encode : Int → Int → String) (client : Addr → Option GeoRes)
    (addresses : List Addr) (a : Addr) :
    dictLookup (geocode_addresses_batch cache rf wf encode client addresses).results a =
      resolveSpec cache rf encode client addresses a := by
  by_cases hm : addresses.filter
      (fun x => (dictLookup (lookupLoop cache rf addresses ([], 0)).1 x).isNone) = []
  · simp only [geocode_addresses_batch, hm, if_pos]
    unfold resolveSpec
    rw [lookupLoop_lookup]
    by_cases hmem : a ∈ addresses
    · by_cases hP : rf a = false ∧ (dictLookup cache a).isSome
      · simp [hmem, hP]
      · exfalso
        have hin : a ∈ addresses.filter
            (fun x => (dictLookup (lookupLoop cache rf addresses ([], 0)).1 x).isNone) :=
          (mem_misses cache rf addresses a).mpr ⟨hmem, hP⟩
        rw [hm] at hin
        simp at hin
    · simp [hmem]
  · simp only [geocode_addresses_batch, if_neg hm]
    unfold resolveSpec
    rw [geocodeLoop_results, lookupLoop_lookup]
    by_cases hmem : a ∈ addresses
    · by_cases hP : rf a = false ∧ (dictLookup cache a).isSome
      · have hnotmiss : ¬ a ∈ addresses.filter
            (fun x => (dictLookup (lookupLoop cache rf addresses ([], 0)).1 x).isNone) := by
          rw [mem_misses]
          simp [hP]
        cases hca : client a <;> simp [hca, hmem, hP, hnotmiss]
      · have hmiss : a ∈ addresses.filter
            (fun x => (dictLookup (lookupLoop cache rf addresses ([], 0)).1 x).isNone) :=
          (mem_misses cache rf addresses a).mpr ⟨hmem, hP⟩
        cases hca : client a <;> simp [hca, hmem, hP, hmiss]
    · have hnotmiss : ¬ a ∈ addresses.filter
          (fun x => (dictLookup (lookupLoop cache rf addresses ([], 0)).1 x).isNone) := by
        rw [mem_misses]
        simp [hmem]
      cases hca : client a <;> simp [hca, hmem, hnotmiss]

theorem batch_cache (cache : List (Addr × GeoTuple)) (rf wf : Addr → Bool)
    (encode : Int → Int → String) (client : Addr → Option GeoRes)
    (addresses : List Addr) (a : Addr) :
    dictLookup (geocode_addresses_batch cache rf wf encode client addresses).cacheAfter a =
      if a ∈ addresses ∧ ¬ (rf a = false ∧ (dictLookup cache a).isSome) ∧ wf a = false then
        match client a with
        | some r => some (tupleOfRes encode r)
        | none => dictLookup cache a
      else dictLookup cache a := by
  by_cases hm : addresses.filter
      (fun x => (dictLookup (lookupLoop cache rf addresses ([], 0)).1 x).isNone) = []
  · simp only [geocode_addresses_batch, hm, if_pos]
    by_cases hcnd : a ∈ addresses ∧ ¬ (rf a = false ∧ (dictLookup cache a).isSome) ∧ wf a = false
    · exfalso
      have hin : a ∈ addresses.filter
          (fun x => (dictLookup (lookupLoop cache rf addresses ([], 0)).1 x).isNone) :=
        (mem_misses cache rf addresses a).mpr ⟨hcnd.1, hcnd.2.1⟩
      rw [hm] at hin
      simp at hin
    · rw [if_neg hcnd]
  · simp only [geocode_addresses_batch, if_neg hm]
    rw [geocodeLoop_cache]
    by_cases hcnd : a ∈ addresses ∧ ¬ (rf a = false ∧ (dictLookup cache a).isSome) ∧ wf a = false
    · have hmiss : a ∈ addresses.filter
          (fun x => (dictLookup (lookupLoop cache rf addresses ([], 0)).1 x).isNone) :=
        (mem_misses cache rf addresses a).mpr ⟨hcnd.1, hcnd.2.1⟩
      cases hca : client a with
      | none =>
          simp only [hca]
          rw [if_pos hcnd]
      | some r =>
          simp only [hca]
          rw [if_pos ⟨hmiss, hcnd.2.2⟩, if_pos hcnd]
    · have hnotboth : ¬ (a ∈ addresses.filter
          (fun x => (dictLookup (lookupLoop cache rf addresses ([], 0)).1 x).isNone)
          ∧ wf a = false) := by
        rintro ⟨h1, h2⟩
        rw [mem_misses] at h1
        exact hcnd ⟨h1.1, h1.2, h2⟩
      cases hca : client a with
      | none =>
          simp only [hca]
          rw [if_neg hcnd]
      | some r =>
          simp only [hca]
          rw [if_neg hnotboth, if_neg hcnd]

theorem batch_no_misses_calls (cache : List (Addr × GeoTuple)) (rf wf : Addr → Bool)
    (encode : Int → Int → String) (client : Addr → Option GeoRes)
    (addresses : List Addr)
    (h : ∀ a ∈ addresses, rf a = false ∧ (dictLookup cache a).isSome) :
    (geocode_addresses_batch cache rf wf encode client addresses).externalCalls = 0 := by
  have hnil : addresses.filter
      (fun x => (dictLookup (lookupLoop cache rf addresses ([], 0)).1 x).isNone) = [] := by
    rw [List.filter_eq_nil_iff]
    intro a ha
    have hP := h a ha
    rw [lookupLoop_lookup]
    simp only [ha, hP, and_self, if_pos, true_and, Option.isNone_iff_eq_none]
    exact Option.isSome_iff_ne_none.mp hP.2
  simp only [geocode_addresses_batch, hnil, if_pos]

/-- The per-address resolution is unchanged by the write-backs of a prior
batch call over the same inputs. -/
theorem resolveSpec_stable (cache : List (Addr × GeoTuple)) (rf wf : Addr → Bool)
    (encode : Int → Int → String) (client : Addr → Option GeoRes)
    (addresses : List Addr) (a : Addr) :
    resolveSpec (geocode_addresses_batch cache rf wf encode client addresses).cacheAfter
        rf encode client addresses a =
      resolveSpec cache rf encode client addresses a := by
  unfold resolveSpec
  by_cases hmem : a ∈ addresses
  · simp only [hmem, if_true]
    rw [batch_cache]
    by_cases hP : rf a = false ∧ (dictLookup cache a).isSome
    · have hcnd : ¬ (a ∈ addresses ∧
          ¬ (rf a = false ∧ (dictLookup cache a).isSome) ∧ wf a = false) := by
        rintro ⟨h1, h2, h3⟩
        exact h2 hP
      rw [if_neg hcnd]
    · by_cases hrf : rf a = false
      · have hnone : dictLookup cache a = none := by
          cases hcv : dictLookup cache a with
          | none => rfl
          | some t => exact absurd ⟨hrf, by rw [hcv]; rfl⟩ hP
        by_cases hwf : wf a = false
        · have hcnd : a ∈ addresses ∧
              ¬ (rf a = false ∧ (dictLookup cache a).isSome) ∧ wf a = false :=
            ⟨hmem, hP, hwf⟩
          rw [if_pos hcnd]
          cases hca : client a with
          | none => rfl
          | some r =>
              rw [if_pos ⟨hrf, rfl⟩, if_neg hP]
              rfl
        · have hcnd : ¬ (a ∈ addresses ∧
              ¬ (rf a = false ∧ (dictLookup cache a).isSome) ∧ wf a = false) := by
            rintro ⟨h1, h2, h3⟩
            exact hwf h3
          rw [if_neg hcnd]
      · cases hrfv : rf a with
        | false => exact absurd hrfv hrf
        | true => simp
  · simp [hmem]

/-! ## Claims C1 and C4 -/

/-- Claim C1, amended: for every batch of input addresses, the geocode cache
lookup that partitions them into known and unknown is performed as one cache
query per address — `addresses.length` queries in total — not as a single
bulk query covering the whole batch. -/
theorem c1_one_cache_query_per_address (cache : List (Addr × GeoTuple)) (rf wf : Addr → Bool)
    (encode : Int → Int → String) (client : Addr → Option GeoRes) (addresses : List Addr) :
    (geocode_addresses_batch cache rf wf encode client addresses).cacheQueries =
      addresses.length :=
  batch_queries cache rf wf encode client addresses

/-- Claim C1 counterexample: a batch of two addresses issues two cache-store
queries, not the single bulk query covering both that the claim requires. -/
theorem c1_not_single_bulk_query :
    (geocode_addresses_batch [] (fun _ => false) (fun _ => false) (fun _ _ => "gh")
        (fun _ => none) [some "A", some "B"]).cacheQueries = 2 ∧ (2 : Nat) ≠ 1 :=
  ⟨rfl, by decide⟩

/-- Claim C4, amended: calling the geocode resolve operation twice with the
cache store and external geocoder unchanged between calls returns an
identical mapping on the second call; and if every address in the batch was
resolved by the first call with no cache read or write failures, the second
call makes zero calls to the external geocoder client. (An address the
geocoder cannot resolve is never written back to the cache, so the second
call sends it to the external geocoder again.) -/
theorem c4_resolve_idempotent (cache : List (Addr × GeoTuple)) (rf wf : Addr → Bool)
    (encode : Int → Int → String) (client : Addr → Option GeoRes) (addresses : List Addr) :
    (∀ a, dictLookup (geocode_addresses_batch
          (geocode_addresses_batch cache rf wf encode client addresses).cacheAfter
          rf wf encode client addresses).results a =
        dictLookup (geocode_addresses_batch cache rf wf encode client addresses).results a)
    ∧ ((∀ a ∈ addresses, rf a = false ∧ wf a = false ∧
          (dictLookup (geocode_addresses_batch cache rf wf encode client addresses).results
            a).isSome) →
        (geocode_addresses_batch
          (geocode_addresses_batch cache rf wf encode client addresses).cacheAfter
          rf wf encode client addresses).externalCalls = 0) := by
  constructor
  · intro a
    rw [batch_results, batch_results, resolveSpec_stable]
  · intro hAll
    apply batch_no_misses_calls
    intro a ha
    obtain ⟨h1, h2, h3⟩ := hAll a ha
    refine ⟨h1, ?_⟩
    rw [batch_cache]
    by_cases hP : rf a = false ∧ (dictLookup cache a).isSome
    · have hcnd : ¬ (a ∈ addresses ∧
          ¬ (rf a = false ∧ (dictLookup cache a).isSome) ∧ wf a = false) := by
        rintro ⟨g1, g2, g3⟩
        exact g2 hP
      rw [if_neg hcnd]
      exact hP.2
    · rw [batch_results] at h3
      unfold resolveSpec at h3
      rw [if_pos ha, if_neg hP] at h3
      cases hca : client a with
      | none => rw [hca] at h3; simp at h3
      | some r =>
          rw [if_pos ⟨ha, hP, h2⟩]
          rfl

/-- Concrete geocoder used by the idempotence witness: it resolves exactly
the address "X". -/
def sampleClient : Addr → Option GeoRes :=
  fun a => if a = some "X" then some ⟨1, 2, some "98101", some "X St"⟩ else none

/-- Witness for the amended C4 at a concrete one-address input: the second
call returns the same mapping at "X" and makes zero external calls. -/
theorem c4_resolve_idempotent_witness :
    dictLookup (geocode_addresses_batch
        (geocode_addresses_batch [] (fun _ => false) (fun _ => false) (fun _ _ => "gh")
          sampleClient [some "X"]).cacheAfter
        (fun _ => false) (fun _ => false) (fun _ _ => "gh") sampleClient [some "X"]).results
      (some "X") =
      dictLookup (geocode_addresses_batch [] (fun _ => false) (fun _ => false)
        (fun _ _ => "gh") sampleClient [some "X"]).results (some "X")
    ∧ (geocode_addresses_batch
        (geocode_addresses_batch [] (fun _ => false) (fun _ => false) (fun _ _ => "gh")
          sampleClient [some "X"]).cacheAfter
        (fun _ => false) (fun _ => false) (fun _ _ => "gh") sampleClient
        [some "X"]).externalCalls = 0 :=
  ⟨(c4_resolve_idempotent [] (fun _ => false) (fun _ => false) (fun _ _ => "gh")
      sampleClient [some "X"]).1 (some "X"),
   (c4_resolve_idempotent [] (fun _ => false) (fun _ => false) (fun _ _ => "gh")
      sampleClient [some "X"]).2 (by decide)⟩

/-- Claim C4 counterexample: with an empty cache and a geocoder that cannot
resolve the address "X", the second resolve call still makes one external
geocoder call (not zero), because unresolved addresses are never cached. -/
theorem c4_second_call_still_external :
    (geocode_addresses_batch
        (geocode_addresses_batch [] (fun _ => false) (fun _ => false) (fun _ _ => "gh")
          (fun _ => none) [some "X"]).cacheAfter
        (fun _ => false) (fun _ => false) (fun _ _ => "gh") (fun _ => none)
        [some "X"]).externalCalls = 1 ∧ (1 : Nat) ≠ 0 :=
  ⟨rfl, by decide⟩

/-! ## Claims C7, C10 and C9 -/

theorem zip_take_min {α β : Type} (xs : List α) (ys : List β) :
    xs.zip ys = (xs.take (min xs.length ys.length)).zip
      (ys.take (min xs.length ys.length)) := by
  induction xs generalizing ys with
  | nil => simp
  | cons x xs ih =>
      cases ys with
      | nil => simp
      | cons y ys =>
          simp only [List.zip_cons_cons, List.length_cons, Nat.succ_min_succ,
            List.take_succ_cons]
          rw [← ih]

theorem dictLookup_foldl_ins (ps : List (String × String)) (d : Entry) (k : String) :
    dictLookup (ps.foldl (fun d p => dictInsert p.1 p.2 d) d) k =
      match ps.reverse.find? (fun p => decide (p.1 = k)) with
      | some q => some q.2
      | none => dictLookup d k := by
  induction ps generalizing d with
  | nil => simp
  | cons p rest ih =>
      simp only [List.foldl_cons, List.reverse_cons]
      rw [ih, List.find?_append]
      cases hf : rest.reverse.find? (fun p => decide (p.1 = k)) with
      | some q => simp [hf, Option.orElse]
      | none =>
          by_cases hpk : p.1 = k <;>
            simp [hf, Option.orElse, List.find?, hpk]

theorem dictLookup_dictOfPairs (ps : List (String × String)) (k : String) :
    dictLookup (dictOfPairs ps) k =
      (ps.reverse.find? (fun p => decide (p.1 = k))).map (fun p => p.2) := by
  unfold dictOfPairs
  rw [dictLookup_foldl_ins]
  cases hf : ps.reverse.find? (fun p => decide (p.1 = k)) <;> simp [hf]

/-- Claim C7: a row with zero label cells or zero value cells contributes no
record to the extractor's output (and the extractor, a total function,
raises no error on it); every kept row contributes exactly one mapping:
`parse_html` is exactly `rowDict` mapped over the rows that have at least
one label and at least one value. -/
theorem c7_empty_rows_dropped (rows : List (List Cell)) :
    parse_html rows =
      (rows.filter (fun row =>
        decide (labelsOf row ≠ []) && decide (valuesOf row ≠ []))).map rowDict := by
  induction rows with
  | nil => rfl
  | cons row rest ih =>
      by_cases h : labelsOf row ≠ [] ∧ valuesOf row ≠ []
      · have hb : (decide (labelsOf row ≠ []) && decide (valuesOf row ≠ [])) = true := by
          simp [h.1, h.2]
        simp only [parse_html, if_pos h, List.filter_cons, hb, if_true, List.map_cons, ih]
      · have hb : (decide (labelsOf row ≠ []) && decide (valuesOf row ≠ [])) = false := by
          by_cases h1 : labelsOf row = [] <;> by_cases h2 : valuesOf row = [] <;>
            simp [h1, h2] at h ⊢
        simp only [parse_html, if_neg h, List.filter_cons, hb, Bool.false_eq_true,
          if_false, ih]

/-- The concrete row used by the C10 theorem: two identical label cells and
three value cells. -/
def dupLabelRow : List Cell :=
  [⟨true, "A:"⟩, ⟨true, "A:"⟩, ⟨false, "1"⟩, ⟨false, "2"⟩, ⟨false, "3"⟩]

/-- Claim C10: `dict(zip(labels, values))` pairs cells positionally and uses
only the first `min(#labels, #values)` pairs, discarding surplus cells; a
repeated label keeps the value of its last pair (later overwrites earlier),
so the mapping can have fewer than `min(#labels, #values)` entries — as on
the concrete row with labels ["A", "A"] and values ["1", "2", "3"], which
yields the single-entry mapping {"A": "2"}. -/
theorem c10_min_pairing_and_overwrite :
    (∀ row : List Cell, rowDict row = dictOfPairs
        (((labelsOf row).take (min (labelsOf row).length (valuesOf row).length)).zip
          ((valuesOf row).take (min (labelsOf row).length (valuesOf row).length))))
    ∧ (∀ (ps : List (String × String)) (k : String),
        dictLookup (dictOfPairs ps) k =
          (ps.reverse.find? (fun p => decide (p.1 = k))).map (fun p => p.2))
    ∧ (labelsOf dupLabelRow).length = 2
    ∧ (valuesOf dupLabelRow).length = 3
    ∧ parse_html [dupLabelRow] = [[("A", "2")]] := by
  refine ⟨fun row => ?_, dictLookup_dictOfPairs, rfl, rfl, by decide⟩
  unfold rowDict
  rw [← zip_take_min]

/-- Claim C9: the row-limit argument `0` applies no truncation — `if limit:`
tests Python truthiness and `0` is falsy — so `main` with `--limit 0`
behaves exactly like `main` with no limit and processes every extracted
record. -/
theorem c9_limit_zero_processes_all :
    (∀ data : List Entry, applyLimit (some 0) data = data)
    ∧ (∀ (Date : Type) (rows : List (List Cell)) (cache : List (Addr × GeoTuple))
        (rf wf : Addr → Bool) (encode : Int → Int → String) (client : Addr → Option GeoRes)
        (parseDate : String → Option Date) (toRfc : Date → String) (opFails : Entry → Bool)
        (now : Nat) (st : Store),
        main_model (some 0) rows cache rf wf encode client parseDate toRfc opFails now st =
          main_model none rows cache rf wf encode client parseDate toRfc opFails now st) := by
  constructor
  · intro data
    rfl
  · intro Date rows cache rf wf encode client parseDate toRfc opFails now st
    rfl

/-! ## Claims C2, C6, C5, C8 and C3 -/

theorem keyMatch_congr (ld ld2 : LicenseData)
    (hkey : ld2.license_number = ld.license_number ∧
      ld2.notification_date = ld.notification_date ∧ ld2.license_type = ld.license_type)
    (r : StoredRow) : keyMatch ld2 r = keyMatch ld r := by
  unfold keyMatch
  rw [hkey.1, hkey.2.1, hkey.2.2]

/-- Claim C2: with no stored row matching the natural key, upsert inserts a
new row with `created = updated = now1`; a second upsert of a record with
the same natural key updates that row in place — the data is replaced,
`created` is preserved and `updated` becomes `now2` — and afterwards
exactly one stored row matches the key. -/
theorem c2_upsert_semantics (now1 now2 : Nat) (ld ld2 : LicenseData) (s : Store)
    (hkey : ld2.license_number = ld.license_number ∧
      ld2.notification_date = ld.notification_date ∧ ld2.license_type = ld.license_type)
    (hnone : ∀ r ∈ s.rows, keyMatch ld r = false)
    (hids : ∀ r ∈ s.rows, r.id < s.nextId) :
    (upsert_one now1 ld s).rows = s.rows ++ [⟨s.nextId, now1, now1, ld⟩]
    ∧ (upsert_one now2 ld2 (upsert_one now1 ld s)).rows
        = s.rows ++ [⟨s.nextId, now1, now2, ld2⟩]
    ∧ ((upsert_one now2 ld2 (upsert_one now1 ld s)).rows.filter (keyMatch ld2)).length
        = 1 := by
  have hfind1 : s.rows.find? (keyMatch ld) = none := by
    rw [List.find?_eq_none]
    intro x hx
    rw [hnone x hx]
    simp
  have h1 : upsert_one now1 ld s =
      ⟨s.nextId + 1, s.rows ++ [⟨s.nextId, now1, now1, ld⟩]⟩ := by
    unfold upsert_one
    rw [hfind1]
  have hnone2 : s.rows.find? (keyMatch ld2) = none := by
    rw [List.find?_eq_none]
    intro x hx
    rw [keyMatch_congr ld ld2 hkey x, hnone x hx]
    simp
  have hmatchnew : keyMatch ld2 (⟨s.nextId, now1, now1, ld⟩ : StoredRow) = true := by
    simp [keyMatch, hkey.1, hkey.2.1, hkey.2.2]
  have hfind2 : (s.rows ++ [(⟨s.nextId, now1, now1, ld⟩ : StoredRow)]).find? (keyMatch ld2)
      = some ⟨s.nextId, now1, now1, ld⟩ := by
    rw [List.find?_append, hnone2]
    simp [List.find?, hmatchnew]
  have h2 : upsert_one now2 ld2 (upsert_one now1 ld s) =
      ⟨s.nextId + 1, s.rows ++ [⟨s.nextId, now1, now2, ld2⟩]⟩ := by
    rw [h1]
    unfold upsert_one
    rw [hfind2]
    have hmap : s.rows.map
        (fun r => if r.id = s.nextId then (⟨r.id, r.created, now2, ld2⟩ : StoredRow) else r)
        = s.rows := by
      conv_rhs => rw [← List.map_id s.rows]
      apply List.map_congr_left
      intro r hr
      have hne : r.id ≠ s.nextId := Nat.ne_of_lt (hids r hr)
      simp [hne]
    simp [List.map_append, hmap]
  refine ⟨by rw [h1], by rw [h2], ?_⟩
  rw [h2]
  have hfilnil : s.rows.filter (keyMatch ld2) = [] := by
    rw [List.filter_eq_nil_iff]
    intro x hx
    rw [keyMatch_congr ld ld2 hkey x, hnone x hx]
    simp
  have hmatchupd : keyMatch ld2 (⟨s.nextId, now1, now2, ld2⟩ : StoredRow) = true := by
    simp [keyMatch]
  rw [List.filter_append, hfilnil]
  simp [List.filter, hmatchupd]

/-- Concrete record used by the C2 witness. -/
def sampleLD : LicenseData :=
  { notification_date := "2024-01-02T00:00:00Z"
    current_business_name := some "OLD BAR"
    new_business_name := some "NEW BAR"
    business_location := some "100 MAIN ST"
    current_applicants := none
    new_applicants := some "JANE DOE"
    license_type := some "Beer/Wine Rest"
    application_type := some "NEW"
    license_number := some "123456"
    contact_phone := some "(206) 555-0100"
    latitude := some 47
    longitude := some (-122)
    geohash := some "c22yzv"
    zipcode := some "98101"
    formatted_address := some "100 Main St, Seattle WA"
    business_name := none
    applicants := none }

/-- The C2 witness's second application: same natural key, one mutable
field changed. -/
def sampleLD2 : LicenseData :=
  { sampleLD with contact_phone := some "(206) 555-0199" }

/-- Witness for C2 at a concrete input: empty store, then the record
applied at time 1 and its variant reapplied at time 2. -/
theorem c2_upsert_semantics_witness :
    (upsert_one 1 sampleLD ⟨0, []⟩).rows = [⟨0, 1, 1, sampleLD⟩]
    ∧ (upsert_one 2 sampleLD2 (upsert_one 1 sampleLD ⟨0, []⟩)).rows = [⟨0, 1, 2, sampleLD2⟩]
    ∧ ((upsert_one 2 sampleLD2 (upsert_one 1 sampleLD ⟨0, []⟩)).rows.filter
        (keyMatch sampleLD2)).length = 1 :=
  c2_upsert_semantics 1 2 sampleLD sampleLD2 ⟨0, []⟩ ⟨rfl, rfl, rfl⟩
    (by intro r hr; cases hr) (by intro r hr; cases hr)

/-- Claim C6: a record whose resolved business address is absent from the
geocode mapping is persisted with all five geocoding fields null, no error
is raised, and every remaining field of the record is stored in full. -/
theorem c6_missing_geocode_null_fields {Date : Type} (parseDate : String → Option Date)
    (toRfc : Date → String) (g : List (Addr × GeoTuple)) (now : Nat) (e : Entry)
    (s : Store) (d : Date)
    (hdate : get_notification_date parseDate e = some d)
    (hmiss : dictLookup g (resolveAddress e) = none) :
    upsert_data parseDate toRfc g (fun _ => false) now [e] s =
        Except.ok (upsert_one now (mk_license_data g (toRfc d) e) s)
    ∧ (mk_license_data g (toRfc d) e).latitude = none
    ∧ (mk_license_data g (toRfc d) e).longitude = none
    ∧ (mk_license_data g (toRfc d) e).geohash = none
    ∧ (mk_license_data g (toRfc d) e).zipcode = none
    ∧ (mk_license_data g (toRfc d) e).formatted_address = none
    ∧ (mk_license_data g (toRfc d) e).notification_date = toRfc d
    ∧ (mk_license_data g (toRfc d) e).business_location = resolveAddress e
    ∧ (mk_license_data g (toRfc d) e).license_number = dictLookup e "License Number"
    ∧ (mk_license_data g (toRfc d) e).license_type = dictLookup e "License Type"
    ∧ (mk_license_data g (toRfc d) e).application_type = dictLookup e "Application Type"
    ∧ (mk_license_data g (toRfc d) e).current_business_name
        = dictLookup e "Current Business Name"
    ∧ (mk_license_data g (toRfc d) e).new_business_name = dictLookup e "New Business Name"
    ∧ (mk_license_data g (toRfc d) e).current_applicants
        = dictLookup e "Current Applicant(s)"
    ∧ (mk_license_data g (toRfc d) e).new_applicants = dictLookup e "New Applicant(s)"
    ∧ (mk_license_data g (toRfc d) e).contact_phone = dictLookup e "Contact Phone"
    ∧ (mk_license_data g (toRfc d) e).business_name = dictLookup e "Business Name"
    ∧ (mk_license_data g (toRfc d) e).applicants = dictLookup e "Applicant(s)" := by
  refine ⟨?_, ?_⟩
  · simp [upsert_data, hdate, to_rfc339E]
  · simp [mk_license_data, hmiss, geoFromLookup]

/-- Entry used by the C6 witness: it has a date but its address is unknown
to the geocode mapping. -/
def unknownAddrEntry : Entry :=
  [("Notification Date", "03/04/2024"), ("License Number", "777777"),
   ("License Type", "Grocery Store"), ("Business Location", "999 NOWHERE RD")]

/-- Witness for C6 at a concrete input: the record persists with null
geocoding fields. -/
theorem c6_missing_geocode_null_fields_witness :
    upsert_data (fun _ => some (0 : Nat)) (fun _ => "2024-03-04T00:00:00Z") []
        (fun _ => false) 9 [unknownAddrEntry] ⟨0, []⟩ =
      Except.ok (upsert_one 9
        (mk_license_data [] "2024-03-04T00:00:00Z" unknownAddrEntry) ⟨0, []⟩)
    ∧ (mk_license_data [] "2024-03-04T00:00:00Z" unknownAddrEntry).latitude = none
    ∧ (mk_license_data [] "2024-03-04T00:00:00Z" unknownAddrEntry).license_number
        = dictLookup unknownAddrEntry "License Number" := by
  have h := c6_missing_geocode_null_fields (fun _ => some (0 : Nat))
    (fun _ => "2024-03-04T00:00:00Z") [] 9 unknownAddrEntry ⟨0, []⟩ 0 (by decide) (by decide)
  exact ⟨h.1, h.2.1, h.2.2.2.2.2.2.2.2.1⟩

/-- The first record of the C5 failing batch: no date field at all, so
`get_notification_date` returns `None`. -/
def noDateEntry : Entry := [("License Number", "X1")]

/-- The second record of the C5 failing batch: well-formed. -/
def goodEntry : Entry :=
  [("Notification Date", "01/02/2024"), ("License Number", "X2"),
   ("License Type", "Beer")]

/-- Claim C5 evaluation (code bug): the per-record `try` of `upsert_data`
catches store failures, but the `to_rfc339` call at line 161 sits outside
the `try`, so a record whose notification date resolves to `None` raises an
uncaught `AttributeError` that aborts the whole batch — here the
well-formed second record is never upserted and the store is left
untouched. The same well-formed record alone succeeds, and a store failure
(`opFails`) is caught and the loop continues over both records. -/
theorem c5_null_date_aborts_batch :
    upsert_data (fun s => if s = "01/02/2024" then some (1 : Nat) else none)
        (fun _ => "RFC") [] (fun _ => false) 7 [noDateEntry, goodEntry] ⟨0, []⟩
      = Except.error ("AttributeError", ⟨0, []⟩)
    ∧ upsert_data (fun s => if s = "01/02/2024" then some (1 : Nat) else none)
        (fun _ => "RFC") [] (fun _ => false) 7 [goodEntry] ⟨0, []⟩
      = Except.ok ⟨1, [⟨0, 7, 7, mk_license_data [] "RFC" goodEntry⟩]⟩
    ∧ upsert_data (fun s => if s = "01/02/2024" then some (1 : Nat) else none)
        (fun _ => "RFC") [] (fun _ => true) 7 [goodEntry, goodEntry] ⟨0, []⟩
      = Except.ok ⟨0, []⟩ := by
  exact ⟨rfl, rfl, rfl⟩

/-- Claim C8: the resolved address — "Business Location" when present and
non-empty, otherwise "New Business Location" — is the value persisted as
`business_location`, is the key used to look up the geocode mapping for the
record's five geocoding fields, and is the very value `main` collects per
record into the address list sent to the geocode batch. -/
theorem c8_resolved_address_consistent :
    (∀ (g : List (Addr × GeoTuple)) (nd : String) (e : Entry),
      (mk_license_data g nd e).business_location = resolveAddress e
      ∧ ((mk_license_data g nd e).latitude, (mk_license_data g nd e).longitude,
          (mk_license_data g nd e).geohash, (mk_license_data g nd e).zipcode,
          (mk_license_data g nd e).formatted_address)
        = geoFromLookup (dictLookup g (resolveAddress e)))
    ∧ (∀ e : Entry, resolveAddress e =
        match dictLookup e "Business Location" with
        | some str => if str = "" then dictLookup e "New Business Location" else some str
        | none => dictLookup e "New Business Location")
    ∧ (∀ (Date : Type) (limit : Option Int) (rows : List (List Cell))
        (cache : List (Addr × GeoTuple)) (rf wf : Addr → Bool)
        (encode : Int → Int → String) (client : Addr → Option GeoRes)
        (parseDate : String → Option Date) (toRfc : Date → String)
        (opFails : Entry → Bool) (now : Nat) (st : Store),
        main_model limit rows cache rf wf encode client parseDate toRfc opFails now st =
          upsert_data parseDate toRfc
            (geocode_addresses_batch cache rf wf encode client
              ((applyLimit limit (parse_html rows)).map resolveAddress)).results
            opFails now (applyLimit limit (parse_html rows)) st) := by
  refine ⟨fun g nd e => ⟨rfl, ?_⟩, fun e => ?_, fun _ _ _ _ _ _ _ _ _ _ _ _ _ => rfl⟩
  · simp only [mk_license_data]
  · unfold resolveAddress pyOr
    cases dictLookup e "Business Location" <;> rfl

/-- Claim C3 (spec-modelled): the retention sweep deletes every stored
record whose creation_date is more than 180 days in the past at sweep time
and retains every record less than 180 days old. -/
theorem c3_retention_window (now : Nat) (s : Store) (r : StoredRow) (hr : r ∈ s.rows) :
    (180 < now - r.created → r ∉ (retention_sweep now s).rows)
    ∧ (now - r.created < 180 → r ∈ (retention_sweep now s).rows) := by
  constructor
  · intro hold hmem
    unfold retention_sweep at hmem
    simp only [List.mem_filter, decide_eq_true_eq] at hmem
    omega
  · intro hyoung
    unfold retention_sweep
    simp only [List.mem_filter, decide_eq_true_eq]
    exact ⟨hr, by omega⟩

/-- Empty record payload used by the C3 witness rows. -/
def blankLD : LicenseData :=
  ⟨"", none, none, none, none, none, none, none, none, none, none, none, none,
   none, none, none, none⟩

/-- Witness for C3, the spec's scenario at day 200 with a 180-day window: a
record created on day 0 (200 days old) is deleted, a record created on day
100 (100 days old) is retained. -/
theorem c3_retention_window_witness :
    (⟨0, 0, 0, blankLD⟩ : StoredRow) ∉
        (retention_sweep 200 ⟨2, [⟨0, 0, 0, blankLD⟩, ⟨1, 100, 100, blankLD⟩]⟩).rows
    ∧ (⟨1, 100, 100, blankLD⟩ : StoredRow) ∈
        (retention_sweep 200 ⟨2, [⟨0, 0, 0, blankLD⟩, ⟨1, 100, 100, blankLD⟩]⟩).rows :=
  ⟨(c3_retention_window 200 ⟨2, [⟨0, 0, 0, blankLD⟩, ⟨1, 100, 100, blankLD⟩]⟩
      ⟨0, 0, 0, blankLD⟩ (by simp)).1 (by decide),
   (c3_retention_window 200 ⟨2, [⟨0, 0, 0, blankLD⟩, ⟨1, 100, 100, blankLD⟩]⟩
      ⟨1, 100, 100, blankLD⟩ (by simp)).2 (by decide)⟩

end Wslcb
